import Mathlib

/-!
Verification of the GitHub crawling core of the `sdk-datasets` repository:
a shallow embedding of `src/github/client.py`, `src/github/repository.py`
and `src/github/content_fetcher.py`, followed by theorems settling the
behavioural claims about those modules.

Conventions of the embedding:
* Python strings are `String` (all data involved is ASCII); `str.lower`,
  the `in` substring test, `str.endswith` and `str.rstrip` are re-implemented
  below on `List Char` so that they are easy to reason about and evaluate.
* Wall-clock instants and durations are exact rationals `ℚ` (the Python code
  compares floats obtained from `time.time()`; all comparisons the claims
  need are far from rounding boundaries).
* Network effects are passed in as explicit functions: the response to the
  i-th HTTP attempt of a `get` call, the downloaded content of a file (or the
  message of the exception raised while downloading/caching it), the listing
  of a repository tree (given as a value of an inductive tree type).
* `time.sleep` calls performed by the retry logic are recorded in an output
  list of durations, and the number of HTTP requests actually issued is
  returned, so that "fails fast without sleeping / without issuing a request"
  is expressible.  The 1-second inter-request pacing sleep (a concurrency
  throttle, not part of any claim) is not recorded.
-/

namespace SdkDatasets

/-- `startsWithChars p l` : `p` is an initial segment of `l` (character lists). -/
def startsWithChars : List Char → List Char → Bool
  | [], _ => true
  | _ :: _, [] => false
  | a :: as, b :: bs => a == b && startsWithChars as bs

/-- `containsChars n h` : `n` occurs contiguously inside `h` — Python's
`n in h` on strings, transported to character lists. -/
def containsChars (needle : List Char) : List Char → Bool
  | [] => startsWithChars needle []
  | c :: t => startsWithChars needle (c :: t) || containsChars needle t

/-- Python `needle in hay` for strings. -/
def pyIn (needle hay : String) : Bool :=
  containsChars needle.data hay.data

/-- ASCII lower-casing of one character, as Python's `str.lower` acts on ASCII. -/
def pyLowerChar (c : Char) : Char :=
  if 'A' ≤ c && c ≤ 'Z' then Char.ofNat (c.toNat + 32) else c

/-- Python `s.lower()` (the repository only ever feeds it ASCII data). -/
def pyLower (s : String) : String :=
  ⟨s.data.map pyLowerChar⟩

/-- Python `s.endswith(t)`. -/
def pyEndsWith (s t : String) : Bool :=
  startsWithChars t.data.reverse s.data.reverse

/-- Python `s.rstrip(chars)`: removes every trailing character that is a member
of the character *set* `chars` (not the trailing substring `chars`). -/
def pyRstrip (s : String) (chars : List Char) : String :=
  ⟨(s.data.reverse.dropWhile (fun c => chars.contains c)).reverse⟩

/-! ## `GitHubClient.get` (src/github/client.py, lines 50–161)

The response the server gives to one HTTP attempt.  A 403 whose body contains
"rate limit exceeded" is singled out exactly as the code does; every other
non-200 status is `httpError`; `requests` exceptions are `netError`. -/

inductive Resp where
  | ok (body : Nat)
  | rateLimited (resetEpoch : ℚ)
  | httpError (status : Nat) (msg : String)
  | netError (msg : String)
deriving DecidableEq, Repr

/-- How one call of `GitHubClient.get` ends.  Each constructor names the
exact `raise`/`return` site in `src/github/client.py`:
* `success`                  — line 113, `return response.json()`
* `quotaNearlyExhausted w`   — line 76, `raise RateLimitError(... wait ...)`
  (pre-flight hourly-budget check)
* `rateLimitLongWait w`      — line 125, `raise RateLimitError(message)` when
  the computed wait exceeds 120 s
* `rateLimitRetriesExhausted`— line 136,
  `raise RateLimitError("GitHub API rate limit exceeded. Please try again later.")`
* `apiError s m`             — line 147, `raise GitHubAPIError(f"GitHub API error: {s} - {m}")`
* `connectError m`           — line 159, `raise GitHubAPIError(f"Failed to connect to GitHub API: {m}")`
* `maxRetriesReached`        — line 161, `raise GitHubAPIError("Maximum retries reached")`. -/
inductive GetResult where
  | success (body : Nat)
  | quotaNearlyExhausted (waitSeconds : ℚ)
  | rateLimitLongWait (waitSeconds : ℚ)
  | rateLimitRetriesExhausted
  | apiError (status : Nat) (msg : String)
  | connectError (msg : String)
  | maxRetriesReached
deriving DecidableEq, Repr

/-- The exception class raised for each outcome: `RateLimitError` is the
subclass `GitHubAPIError` → `RateLimitError` of src/github/client.py line 25. -/
def isRateLimitError : GetResult → Bool
  | .quotaNearlyExhausted _ => true
  | .rateLimitLongWait _ => true
  | .rateLimitRetriesExhausted => true
  | _ => false

/-- The literal exception message of the outcomes whose Python message is a
string constant (the other messages interpolate formatted floats). -/
def pyExceptionMessage : GetResult → Option String
  | .rateLimitRetriesExhausted =>
      some "GitHub API rate limit exceeded. Please try again later."
  | .maxRetriesReached => some "Maximum retries reached"
  | .apiError s m => some ("GitHub API error: " ++ toString s ++ " - " ++ m)
  | _ => none

/-- The class-level hourly-budget state of `GitHubClient`
(`hour_start_time`, `current_requests`). -/
structure RateState where
  hourStart : ℚ
  currentRequests : Nat
deriving DecidableEq, Repr

/-- `GitHubClient.requests_per_hour` (line 38). -/
def requestsPerHour : Nat := 5000

/-- The retry loop of `GitHubClient.get` (lines 80–161).  `retries` is the
Python loop variable; `fuel = maxRetries - retries` makes the `while
retries < GITHUB_MAX_RETRIES` guard structural: `fuel = 0` is exactly the
loop exiting, which reaches line 161 (`raise GitHubAPIError("Maximum retries
reached")`).  `resp i`/`now i` are the response to and the `time.time()` of
attempt `i`; `jitter i` is the `0.1 * random.random()` drawn after attempt
`i` fails with a network error.  Returns (outcome, sleeps performed by the
retry logic in order, number of HTTP requests issued). -/
def getLoop (maxRetries : Nat) (resp : Nat → Resp) (now : Nat → ℚ)
    (jitter : Nat → ℚ) : Nat → Nat → GetResult × List ℚ × Nat
  | 0, _ => (.maxRetriesReached, [], 0)
  | fuel + 1, retries =>
    match resp retries with
    | .ok b => (.success b, [], 1)
    | .rateLimited reset =>
      let wait : ℚ := max (reset - now retries) 0 + 5
      if 120 < wait then
        (.rateLimitLongWait wait, [], 1)
      else if retries < maxRetries - 1 then
        let r := getLoop maxRetries resp now jitter fuel (retries + 1)
        (r.1, min wait 30 :: r.2.1, r.2.2 + 1)
      else
        (.rateLimitRetriesExhausted, [], 1)
    | .httpError status msg => (.apiError status msg, [], 1)
    | .netError msg =>
      if retries < maxRetries - 1 then
        let r := getLoop maxRetries resp now jitter fuel (retries + 1)
        (r.1, ((2 : ℚ) ^ (retries + 1) + jitter retries) :: r.2.1, r.2.2 + 1)
      else
        (.connectError msg, [], 1)

/-- `GitHubClient.get` (lines 50–161): the pre-flight hourly-budget check of
lines 55–78 followed by the retry loop.  `st` is the class-level counter
state, `tNow` the `time.time()` of the check. -/
def githubGet (maxRetries : Nat) (st : RateState) (tNow : ℚ) (resp : Nat → Resp)
    (now : Nat → ℚ) (jitter : Nat → ℚ) : GetResult × List ℚ × Nat :=
  let elapsed := tNow - st.hourStart
  let cur : Nat := if 3600 < elapsed then 0 else st.currentRequests
  if ((requestsPerHour : ℚ) * (9 / 10) : ℚ) < (cur : ℚ) then
    if (requestsPerHour : ℤ) - (cur : ℤ) ≤ 10 then
      (.quotaNearlyExhausted (max (3600 - elapsed) 60), [], 0)
    else
      getLoop maxRetries resp now jitter maxRetries 0
  else
    getLoop maxRetries resp now jitter maxRetries 0

/-! ## `RepositoryFetcher` (src/github/repository.py)

The configuration values imported from `config.settings` (a module external
to `src/`, per the spec an "external config collaborator") are carried as an
explicit parameter record. -/

structure CrawlConfig where
  relevantFolders : List String
  ignoredDirs : List String
  textFileExtensions : List String
  maxFileSizeMB : ℚ

/-- One entry of a GitHub `contents` listing: a file (with the fields the
crawler reads: `name`, `size`, `sha`, `html_url`) or a directory together
with its own listing.  A whole repository tree is a `List GEntry`. -/
inductive GEntry where
  | file (name : String) (size : Nat) (sha : String) (htmlUrl : String)
  | dir (name : String) (children : List GEntry)

/-- The dictionary `RepositoryFetcher._process_file` returns (lines 198–207
on success, 220–227 on failure).  The success record has `sha`, `url` and
`local_path` and no `error`; the failure record has `error` and none of the
other three. -/
structure FileRecord where
  name : String
  path : String
  sha : Option String
  size : Nat
  url : Option String
  localPath : Option String
  error : Option String
  repo : String
  branch : String
deriving DecidableEq, Repr

/-- `RepositoryFetcher._is_relevant_folder` (lines 229–232):
`any(relevant in folder_name.lower() for relevant in RELEVANT_FOLDERS)`. -/
def isRelevantFolder (relevantFolders : List String) (folderName : String) : Bool :=
  let folderLower := pyLower folderName
  relevantFolders.any (fun relevant => pyIn relevant folderLower)

/-- `RepositoryFetcher._is_text_file` (lines 234–236). -/
def isTextFile (exts : List String) (filename : String) : Bool :=
  exts.any (fun ext => pyEndsWith (pyLower filename) ext)

/-- The file-collection guard of `_fetch_directory_content` line 137–142:
`self._is_relevant_folder(path) or any(part for part in path.split("/") if
self._is_relevant_folder(part))`.  Note Python's `any` over that generator
tests the *truthiness of the parts themselves*, so a relevant part counts
only when it is a non-empty string. -/
def relevantContextForFile (cfg : CrawlConfig) (path : String) : Bool :=
  isRelevantFolder cfg.relevantFolders path ||
    (path.splitOn "/").any
      (fun part => isRelevantFolder cfg.relevantFolders part && !(part == ""))

/-- The subdirectory-descent guard of `_fetch_directory_content` lines
126–134: descend when the directory's own name or the current path is
relevant, or (`elif path and any(...)`) the path is non-empty and one of its
non-empty segments is relevant. -/
def descendDir (cfg : CrawlConfig) (path name : String) : Bool :=
  isRelevantFolder cfg.relevantFolders name ||
    isRelevantFolder cfg.relevantFolders path ||
    (!(path == "") &&
      (path.splitOn "/").any
        (fun part => isRelevantFolder cfg.relevantFolders part && !(part == "")))

/-- `item["path"]` as the GitHub API reports it: `name` under the root is
just `name`, deeper items are `path ++ "/" ++ name`. -/
def joinPath (path name : String) : String :=
  if path == "" then name else path ++ "/" ++ name

/-- The size filter of `_fetch_directory_content` line 145:
`item["size"] / 1024 / 1024 <= MAX_FILE_SIZE_MB`. -/
def sizeWithinLimit (cfg : CrawlConfig) (size : Nat) : Bool :=
  decide ((size : ℚ) / 1024 / 1024 ≤ cfg.maxFileSizeMB)

/-- `RepositoryFetcher._process_file` (lines 187–227).  `dl fpath` is the
combined effect of `GitHubClient.get_repository_file` and the cache write
`file_path.write_text` — `.ok content` when both succeed, `.error msg` with
the stringified exception when either raises (the function catches every
`Exception`; the best-effort `.error` sidecar file write of lines 211–218 is
a filesystem side effect with no influence on the returned record). -/
def processFile (dl : String → Except String String) (owner repo branch baseDir : String)
    (name fpath sha : String) (size : Nat) (htmlUrl : String) : FileRecord :=
  match dl fpath with
  | .ok _content =>
    { name := name, path := fpath, sha := some sha, size := size,
      url := some htmlUrl, localPath := some (baseDir ++ "/" ++ name),
      error := none, repo := owner ++ "/" ++ repo, branch := branch }
  | .error e =>
    { name := name, path := fpath, sha := none, size := size,
      url := none, localPath := none, error := some e,
      repo := owner ++ "/" ++ repo, branch := branch }

/-- The body of `RepositoryFetcher._fetch_directory_content` (lines 92–185)
over one directory listing: returns `(files_data, subdirectory results)` —
the Python function collects the qualifying files of the current directory
in listing order into `files_data`, then extends it with each descended
subdirectory's recursive result in listing order (the worker pool only
parallelises the subdirectory calls; their results are appended in
submission order at lines 172–176).  There is **no depth counter** in this
function: recursion stops only when a directory has no descendable child. -/
def crawlList (cfg : CrawlConfig) (dl : String → Except String String)
    (owner repo branch : String) :
    String → String → List GEntry → List FileRecord × List FileRecord
  | _, _, [] => ([], [])
  | path, baseDir, .file n sz sha url :: es =>
    let rest := crawlList cfg dl owner repo branch path baseDir es
    if relevantContextForFile cfg path &&
        (isTextFile cfg.textFileExtensions n && sizeWithinLimit cfg sz) then
      (processFile dl owner repo branch baseDir n (joinPath path n) sha sz url :: rest.1,
        rest.2)
    else rest
  | path, baseDir, .dir n ch :: es =>
    let rest := crawlList cfg dl owner repo branch path baseDir es
    if cfg.ignoredDirs.contains n then rest
    else if descendDir cfg path n then
      let sub := crawlList cfg dl owner repo branch (joinPath path n) (baseDir ++ "/" ++ n) ch
      (rest.1, (sub.1 ++ sub.2) ++ rest.2)
    else rest

/-- `RepositoryFetcher._fetch_directory_content` applied to one directory:
its returned `files_data` list — own files first, then the concatenated
subdirectory results. -/
def fetchDirectoryContent (cfg : CrawlConfig) (dl : String → Except String String)
    (owner repo branch path baseDir : String) (entries : List GEntry) : List FileRecord :=
  let r := crawlList cfg dl owner repo branch path baseDir entries
  r.1 ++ r.2

/-- A Python exception as seen by the `except GitHubAPIError` handlers:
either a `GitHubAPIError` (or its subclass) or any other exception. -/
inductive PyErr where
  | apiError (msg : String)
  | otherError (msg : String)
deriving DecidableEq, Repr

/-- `RepositoryFetcher.fetch_relevant_content` (lines 65–90).  `repoLookup`
is the outcome of `self.client.get_repository(owner, repo)` together with the
optional `"default_branch"` field of its JSON body; only a `GitHubAPIError`
from it is caught (line 74), any other exception propagates.  `rootEntries`
is the repository's root listing, crawled from path `""` into the cache
directory `CACHE_DIR/owner/repo`. -/
def fetchRelevantContent (cfg : CrawlConfig) (dl : String → Except String String)
    (owner repo : String) (branch : Option String)
    (repoLookup : Except PyErr (Option String)) (defaultBranch cacheDir : String)
    (rootEntries : List GEntry) : Except PyErr (List FileRecord) :=
  let branchRes : Except PyErr String :=
    match branch with
    | some b => .ok b
    | none =>
      match repoLookup with
      | .ok info => .ok (info.getD defaultBranch)
      | .error (.apiError _) => .ok defaultBranch
      | .error (.otherError m) => .error (.otherError m)
  match branchRes with
  | .error e => .error e
  | .ok b =>
    .ok (fetchDirectoryContent cfg dl owner repo b ""
      (cacheDir ++ "/" ++ owner ++ "/" ++ repo) rootEntries)

/-- `RepositoryFetcher.fetch_single_repo` URL parsing (lines 52–60):
`re.match(r"https?://github\.com/([^/]+)/([^/]+)", repo_url)` — a *prefix*
match whose two groups are the first two non-empty `/`-free runs after
`github.com/`. -/
def matchGithubRepoUrl (url : String) : Option (String × String) :=
  let d := url.data
  let rest? : Option (List Char) :=
    if startsWithChars "https://".data d then some (d.drop 8)
    else if startsWithChars "http://".data d then some (d.drop 7)
    else none
  match rest? with
  | none => none
  | some rest =>
    if startsWithChars "github.com/".data rest then
      let rest2 := rest.drop 11
      let owner := rest2.takeWhile (fun c => !(c == '/'))
      if owner.isEmpty then none
      else
        match rest2.drop owner.length with
        | '/' :: rest4 =>
          let repo := rest4.takeWhile (fun c => !(c == '/'))
          if repo.isEmpty then none else some (⟨owner⟩, ⟨repo⟩)
        | _ => none
    else none

/-- `RepositoryFetcher.fetch_single_repo` up to the API call (lines 52–63):
`.error` is the `ValueError` raised before any API request; on a match the
returned pair is what is passed to `client.get_repository` after
`repo = repo.rstrip(".git")`. -/
def fetchSingleRepoResolve (url : String) : Except String (String × String) :=
  match matchGithubRepoUrl url with
  | none => .error ("Invalid GitHub repository URL: " ++ url)
  | some (owner, repo) => .ok (owner, pyRstrip repo ['.', 'g', 'i', 't'])

/-! ## `ContentFetcher` (src/github/content_fetcher.py) -/

/-- The inner `fetch_repo_content` closure of
`ContentFetcher.fetch_multiple_repositories` (lines 241–251): any exception
from fetching one repository's content is caught and that repository
contributes `[]`.  `fetchRes r` is the outcome of
`self.fetch_content_for_dataset(r)`. -/
def fetchRepoContent {α : Type} (fetchRes : α → Except String (List FileRecord))
    (r : α) : List FileRecord :=
  match fetchRes r with
  | .ok l => l
  | .error _ => []

/-- The batch loop of `fetch_multiple_repositories` (lines 259–294):
`for i in range(0, len(repos), batch_size)` with batch size `bs + 1`,
each batch's per-repository results concatenated in order and appended to
`all_content`. -/
def batchLoop {α : Type} (bs : Nat) (fetchRes : α → Except String (List FileRecord)) :
    List α → List FileRecord
  | [] => []
  | r :: rs =>
    (((r :: rs).take (bs + 1)).map (fetchRepoContent fetchRes)).flatten ++
      batchLoop bs fetchRes (rs.drop bs)
termination_by l => l.length
decreasing_by
  simp only [List.length_cons, List.length_drop]
  omega

/-- `ContentFetcher.fetch_multiple_repositories` (lines 217–334) after the
repository list is in hand: the early `return []` for an empty list
(line 227–231), then the batch loop with `batch_size = min(5, len(repos))`
(lines 254–256). -/
def fetchMultipleRepositories {α : Type} (repos : List α)
    (fetchRes : α → Except String (List FileRecord)) : List FileRecord :=
  if repos.isEmpty then []
  else batchLoop (min 5 repos.length - 1) fetchRes repos

/-- The page loop of `ContentFetcher.fetch_organization_repositories`
(lines 90–126).  `pages p` is the outcome of
`get_organization_repos(org, page=p, per_page=100)`; `cancel p` is
`_cancellation_event.is_set()` as polled at the top of the iteration that
would fetch page `p`.  Returns the result (`.error` = the exception
re-raised by the outer handler) and the `(percent, message)` progress
callbacks issued from this point on.  `fuel` bounds the number of
iterations modelled (the Python loop runs until an empty or short page;
`fuel = 0` stands for no further iterations). -/
def fetchOrgPagesLoop {α : Type} (pages : Nat → Except String (List α))
    (cancel : Nat → Bool) (total : Nat) :
    Nat → Nat → Nat → List α → Except String (List α) × List (ℚ × String)
  | 0, _, _, acc => (.ok acc, [])
  | fuel + 1, page, processed, acc =>
    if cancel page then
      (.ok [], [((processed : ℚ) / ((max 1 total : Nat) : ℚ) * 100, "Operation cancelled")])
    else
      match pages page with
      | .error e => (.error e, [])
      | .ok [] => (.ok acc, [])
      | .ok (r :: repoPage) =>
        let processedNow := processed + (r :: repoPage).length
        let cb : ℚ × String :=
          ((processedNow : ℚ) / ((max 1 total : Nat) : ℚ) * 100,
            "Fetched " ++ toString processedNow ++ "/" ++ toString total ++ " repositories")
        if (r :: repoPage).length < 100 then (.ok (acc ++ r :: repoPage), [cb])
        else
          let next := fetchOrgPagesLoop pages cancel total fuel (page + 1) processedNow
            (acc ++ r :: repoPage)
          (next.1, cb :: next.2)

/-- `ContentFetcher.fetch_organization_repositories` (lines 50–132):
the `orgs/{org}` lookup for `public_repos` (callback
`Found N repositories in org`, an error here propagates after an error
callback), then the page loop starting at page 1 with nothing accumulated;
a loop error likewise produces the outer handler's error callback. -/
def fetchOrganizationRepositories {α : Type} (orgName : String)
    (orgInfo : Except String Nat) (pages : Nat → Except String (List α))
    (cancel : Nat → Bool) (fuel : Nat) :
    Except String (List α) × List (ℚ × String) :=
  match orgInfo with
  | .error e => (.error e, [(0, "Error: " ++ e)])
  | .ok total =>
    let found : ℚ × String :=
      (0, "Found " ++ toString total ++ " repositories in " ++ orgName)
    let r := fetchOrgPagesLoop pages cancel total fuel 1 0 []
    match r.1 with
    | .ok l => (.ok l, found :: r.2)
    | .error e => (.error e, found :: r.2 ++ [(0, "Error: " ++ e)])

/-! ## Concrete instances used by the theorems

The repository's `config/settings.py` is not part of `src/` (the spec treats
it as an "external config collaborator"), so the crawler is parametrised over
`CrawlConfig`; `exCfg` instantiates it with the keyword/extension examples the
spec names (docs, examples, samples, cookbook; text extensions; a 1 MB cap). -/

def exCfg : CrawlConfig :=
  { relevantFolders := ["docs", "examples", "samples", "cookbook"],
    ignoredDirs := ["node_modules", ".git", "build", "dist"],
    textFileExtensions := [".md", ".py", ".txt", ".rst"],
    maxFileSizeMB := 1 }

/-- A download oracle for which every file fetch and cache write succeeds. -/
def dlOk : String → Except String String := fun _ => .ok "content"

/-- A download oracle failing exactly on `docs/b.md` (e.g. a transient error
that exceeded the download retry budget). -/
def dlFailB : String → Except String String :=
  fun p => if p == "docs/b.md" then .error "download failed" else .ok "content"

/-- The spec's synthetic filtering tree: `docs/a.md` (relevant, allowed
extension, 1 KB), `src/b.py` (irrelevant folder), `docs/big.md` (relevant,
allowed extension, 2 MB — over the 1 MB cap). -/
def exTree : List GEntry :=
  [.dir "docs"
    [.file "a.md" 1024 "sha-a" "https://example/a",
     .file "big.md" 2097152 "sha-big" "https://example/big"],
   .dir "src" [.file "b.py" 512 "sha-b" "https://example/b"]]

/-- A relevant folder nested under an irrelevant top-level folder:
`x/docs/a.md`. -/
def exNestedTree : List GEntry :=
  [.dir "x" [.dir "docs" [.file "a.md" 1024 "sha-a" "https://example/a"]]]

/-- Two sibling files in one relevant directory, `docs/a.md` and `docs/b.md`. -/
def siblingTree : List GEntry :=
  [.dir "docs"
    [.file "a.md" 10 "sha-a" "https://example/a",
     .file "b.md" 10 "sha-b" "https://example/b"]]

/-- A chain of `n` single-child directories named `d` ending in one small
markdown file. -/
def nestEntries : Nat → List GEntry
  | 0 => [.file "a.md" 100 "sha-deep" "https://example/deep"]
  | k + 1 => [.dir "d" (nestEntries k)]

/-- A tree whose only file sits `n + 1` directory levels below the root:
`docs/d/d/…/d/a.md`. -/
def deepTree (n : Nat) : List GEntry := [.dir "docs" (nestEntries n)]

/-- `p ++ "/" ++ "d"` applied `n` times. -/
def nestDirPath (p : String) : Nat → String
  | 0 => p
  | k + 1 => nestDirPath (p ++ "/" ++ "d") k

/-- The one record the crawl of `deepTree n` produces. -/
def expectedDeepRecord (n : Nat) : FileRecord :=
  { name := "a.md", path := nestDirPath "docs" n ++ "/" ++ "a.md", sha := some "sha-deep",
    size := 100, url := some "https://example/deep",
    localPath := some (nestDirPath "cache/o/r/docs" n ++ "/" ++ "a.md"),
    error := none, repo := "o" ++ "/" ++ "r", branch := "main" }

/-- Exactly one of {`local_path`, `error`} is set in a `FileRecord`
(spec, data model of `FileRecord`). -/
def fileRecordExclusive (r : FileRecord) : Prop :=
  (r.error = none ∧ r.localPath.isSome = true) ∨
    (r.localPath = none ∧ r.error.isSome = true)

/-- A per-repository fetch outcome over repositories numbered by `Nat`:
repository 2 raises, the others return no files. -/
def exFetchRes : Nat → Except String (List FileRecord) :=
  fun n => if n == 2 then .error "boom" else .ok []

/-! ## Helper lemmas -/

lemma startsWithChars_append (n h t : List Char) (hs : startsWithChars n h = true) :
    startsWithChars n (h ++ t) = true := by
  induction n generalizing h with
  | nil => simp [startsWithChars]
  | cons a as ih =>
    cases h with
    | nil => simp [startsWithChars] at hs
    | cons b bs =>
      simp only [startsWithChars, Bool.and_eq_true] at hs
      simp only [List.cons_append, startsWithChars, Bool.and_eq_true]
      exact ⟨hs.1, ih bs hs.2⟩

lemma containsChars_nil_needle (t : List Char) : containsChars [] t = true := by
  cases t <;> simp [containsChars, startsWithChars]

lemma containsChars_append (n h t : List Char) (hc : containsChars n h = true) :
    containsChars n (h ++ t) = true := by
  induction h with
  | nil =>
    have hn : n = [] := by
      cases n with
      | nil => rfl
      | cons a as => simp [containsChars, startsWithChars] at hc
    subst hn
    exact containsChars_nil_needle t
  | cons c hs ih =>
    simp only [containsChars, Bool.or_eq_true] at hc
    simp only [List.cons_append, containsChars, Bool.or_eq_true]
    rcases hc with hc | hc
    · exact Or.inl (by simpa using startsWithChars_append n (c :: hs) t hc)
    · exact Or.inr (ih hc)

lemma pyLower_append (p q : String) : pyLower (p ++ q) = pyLower p ++ pyLower q := by
  apply String.ext
  simp [pyLower, String.data_append]

/-- Relevance of a path is preserved by extending the path: the keyword still
occurs in the longer lower-cased string. -/
lemma isRelevantFolder_append (fs : List String) (p q : String)
    (h : isRelevantFolder fs p = true) : isRelevantFolder fs (p ++ q) = true := by
  simp only [isRelevantFolder, List.any_eq_true] at h ⊢
  obtain ⟨kw, hkw, hc⟩ := h
  refine ⟨kw, hkw, ?_⟩
  rw [pyLower_append]
  simpa [pyIn, String.data_append] using
    containsChars_append kw.data (pyLower p).data (pyLower q).data (by simpa [pyIn] using hc)

/-- When every attempt up to the retry budget answers with a short-wait 403,
the loop sleeps `min wait 30` between attempts and ends at line 136 with
`RateLimitError("GitHub API rate limit exceeded. Please try again later.")`,
never reaching line 161. -/
lemma getLoop_all_short_rateLimited (maxRetries : Nat) (resp : Nat → Resp)
    (now jitter : Nat → ℚ)
    (h : ∀ i, i < maxRetries →
      ∃ rst, resp i = .rateLimited rst ∧ max (rst - now i) 0 + 5 ≤ 120) :
    ∀ fuel retries, fuel = maxRetries - retries → retries < maxRetries →
      ∃ sleeps, getLoop maxRetries resp now jitter fuel retries =
          (.rateLimitRetriesExhausted, sleeps, maxRetries - retries) ∧
        sleeps.length = maxRetries - retries - 1 ∧ ∀ s ∈ sleeps, s ≤ 30 := by
  intro fuel
  induction fuel with
  | zero => intro retries hf hr; omega
  | succ fuel ih =>
    intro retries hf hr
    obtain ⟨rst, hresp, hwait⟩ := h retries hr
    by_cases hlast : retries < maxRetries - 1
    · obtain ⟨sleeps, hrec, hlen, hle⟩ := ih (retries + 1) (by omega) (by omega)
      refine ⟨min (max (rst - now retries) 0 + 5) 30 :: sleeps, ?_, by simp [hlen]; omega, ?_⟩
      · simp only [getLoop, hresp]
        rw [if_neg (by exact not_lt.mpr hwait), if_pos hlast, hrec]
        have : maxRetries - (retries + 1) + 1 = maxRetries - retries := by omega
        simp [this]
      · intro s hs
        rcases List.mem_cons.mp hs with hs | hs
        · subst hs; exact min_le_right _ _
        · exact hle s hs
    · refine ⟨[], ?_, by simp; omega, by simp⟩
      simp only [getLoop, hresp]
      rw [if_neg (by exact not_lt.mpr hwait), if_neg hlast]
      have : maxRetries - retries = 1 := by omega
      simp [this]

/-- The pre-flight hourly-budget check passes whenever the (post-reset)
counter is at most 90% of the budget. -/
lemma githubGet_eq_getLoop (maxRetries : Nat) (st : RateState) (tNow : ℚ)
    (resp : Nat → Resp) (now jitter : Nat → ℚ)
    (hcur : (st.currentRequests : ℚ) ≤ 4500) :
    githubGet maxRetries st tNow resp now jitter =
      getLoop maxRetries resp now jitter maxRetries 0 := by
  have hthr : ((requestsPerHour : ℚ) * (9 / 10) : ℚ) = 4500 := by
    norm_num [requestsPerHour]
  simp only [githubGet, hthr]
  split
  · have h0 : ¬ (4500 : ℚ) < ((0 : Nat) : ℚ) := by norm_num
    rw [if_neg h0]
  · rw [if_neg (not_lt.mpr hcur)]

/-- Every record `_process_file` returns carries exactly one of
{`local_path`, `error`}. -/
lemma processFile_exclusive (dl : String → Except String String)
    (owner repo branch baseDir name fpath sha : String) (size : Nat) (htmlUrl : String) :
    fileRecordExclusive (processFile dl owner repo branch baseDir name fpath sha size htmlUrl) := by
  rcases hdl : dl fpath with e | c <;>
    simp [processFile, fileRecordExclusive, hdl]

/-- Every record the crawl returns comes out of `_process_file`, so it
satisfies the exclusive-or invariant. -/
lemma crawlList_exclusive (cfg : CrawlConfig) (dl : String → Except String String)
    (owner repo branch : String) :
    ∀ (path baseDir : String) (entries : List GEntry) (r : FileRecord),
      r ∈ (crawlList cfg dl owner repo branch path baseDir entries).1 ∨
        r ∈ (crawlList cfg dl owner repo branch path baseDir entries).2 →
      fileRecordExclusive r := by
  intro path baseDir entries
  induction path, baseDir, entries using crawlList.induct cfg dl owner repo branch with
  | case1 p b =>
    intro r hr
    simp [crawlList] at hr
  | case2 p b n sz sha url es hcond ih =>
    intro r hr
    rw [crawlList, if_pos hcond] at hr
    rcases hr with hr | hr
    · rcases List.mem_cons.mp hr with hr | hr
      · subst hr; exact processFile_exclusive dl owner repo branch b n (joinPath p n) sha sz url
      · exact ih r (Or.inl hr)
    · exact ih r (Or.inr hr)
  | case3 p b n sz sha url es hcond ih =>
    intro r hr
    rw [crawlList, if_neg hcond] at hr
    exact ih r hr
  | case4 p b n ch es hign ih =>
    intro r hr
    rw [crawlList, if_pos hign] at hr
    exact ih r hr
  | case5 p b n ch es hign hdesc ih ihch =>
    intro r hr
    rw [crawlList, if_neg hign, if_pos hdesc] at hr
    rcases hr with hr | hr
    · exact ih r (Or.inl hr)
    · rcases List.mem_append.mp hr with hr | hr
      · rcases List.mem_append.mp hr with hr | hr
        · exact ihch r (Or.inl hr)
        · exact ihch r (Or.inr hr)
      · exact ih r (Or.inr hr)
  | case6 p b n ch es hign hdesc ih =>
    intro r hr
    rw [crawlList, if_neg hign, if_neg hdesc] at hr
    exact ih r hr

/-- Crawling the `d`-chain from any relevant path yields exactly the one
deep file record — for every chain length, since `_fetch_directory_content`
has no depth counter. -/
lemma crawl_nestEntries (k : Nat) :
    ∀ (path baseDir : String), isRelevantFolder exCfg.relevantFolders path = true →
      (crawlList exCfg dlOk "o" "r" "main" path baseDir (nestEntries k)).1 ++
          (crawlList exCfg dlOk "o" "r" "main" path baseDir (nestEntries k)).2 =
        [{ name := "a.md", path := nestDirPath path k ++ "/" ++ "a.md",
           sha := some "sha-deep", size := 100, url := some "https://example/deep",
           localPath := some (nestDirPath baseDir k ++ "/" ++ "a.md"),
           error := none, repo := "o" ++ "/" ++ "r", branch := "main" }] := by
  induction k with
  | zero =>
    intro path baseDir h
    have hne : (path == "") = false := by
      have : path ≠ "" := by
        intro e
        rw [e] at h
        exact absurd h (by decide)
      exact beq_eq_false_iff_ne.mpr this
    have hsz : sizeWithinLimit exCfg 100 = true := by
      norm_num [sizeWithinLimit, exCfg]
    have htxt : isTextFile exCfg.textFileExtensions "a.md" = true := by decide
    simp [nestEntries, crawlList, relevantContextForFile, h, joinPath, hne,
      processFile, dlOk, nestDirPath, hsz, htxt]
  | succ k ih =>
    intro path baseDir h
    have hne : (path == "") = false := by
      have : path ≠ "" := by
        intro e
        rw [e] at h
        exact absurd h (by decide)
      exact beq_eq_false_iff_ne.mpr this
    have hrel : isRelevantFolder exCfg.relevantFolders ((path ++ "/") ++ "d") = true :=
      isRelevantFolder_append _ _ _ (isRelevantFolder_append _ _ _ h)
    have hdesc : descendDir exCfg path "d" = true := by
      simp [descendDir, h]
    simp only [nestEntries, crawlList]
    rw [if_neg (by decide : ¬ exCfg.ignoredDirs.contains "d" = true), if_pos hdesc]
    simp only [joinPath, hne, Bool.false_eq_true, if_false]
    rw [nestDirPath, nestDirPath]
    have := ih (path ++ "/" ++ "d") (baseDir ++ "/" ++ "d") (by simpa using hrel)
    simp [this]

/-- The full crawl of `deepTree n` through `fetch_relevant_content`:
one record, for the file `n + 1` directory levels below the root. -/
lemma fetchRelevantContent_deepTree (n : Nat) :
    fetchRelevantContent exCfg dlOk "o" "r" (some "main") (.ok none) "main" "cache"
        (deepTree n) =
      .ok [expectedDeepRecord n] := by
  simp only [fetchRelevantContent, fetchDirectoryContent, deepTree]
  simp only [crawlList]
  rw [if_neg (by decide : ¬ exCfg.ignoredDirs.contains "docs" = true),
    if_pos (by decide : descendDir exCfg "" "docs" = true)]
  have hstep := crawl_nestEntries n "docs" "cache/o/r/docs" (by decide)
  simp [joinPath, expectedDeepRecord, hstep]

/-! ## Claim theorems -/

/-- C1 (amended): on a 403 rate-limit response whose computed wait
`max(reset − now, 0) + 5` exceeds 120 s, `get` raises `RateLimitError`
immediately, with no retry sleep, after a single HTTP request; and when every
attempt up to the retry budget receives a short-wait 403, `get` sleeps a
capped `min(wait, 30) ≤ 30` between attempts and raises
`RateLimitError("GitHub API rate limit exceeded. Please try again later.")`
on the final attempt — not `GitHubAPIError("Maximum retries reached")`. -/
theorem c1_rate_limit_retry_amended (maxRetries : Nat) (st : RateState) (tNow : ℚ)
    (resp : Nat → Resp) (now jitter : Nat → ℚ)
    (hcur : (st.currentRequests : ℚ) ≤ 4500) (hpos : 1 ≤ maxRetries) :
    (∀ rst, resp 0 = .rateLimited rst → 120 < max (rst - now 0) 0 + 5 →
      githubGet maxRetries st tNow resp now jitter =
        (.rateLimitLongWait (max (rst - now 0) 0 + 5), [], 1)) ∧
    ((∀ i, i < maxRetries →
        ∃ rst, resp i = .rateLimited rst ∧ max (rst - now i) 0 + 5 ≤ 120) →
      ∃ sleeps, githubGet maxRetries st tNow resp now jitter =
          (.rateLimitRetriesExhausted, sleeps, maxRetries) ∧
        sleeps.length = maxRetries - 1 ∧ ∀ s ∈ sleeps, s ≤ 30) := by
  constructor
  · intro rst hresp hlong
    rw [githubGet_eq_getLoop maxRetries st tNow resp now jitter hcur]
    obtain ⟨fuel, hfuel⟩ : ∃ fuel, maxRetries = fuel + 1 :=
      ⟨maxRetries - 1, by omega⟩
    rw [hfuel]
    simp only [getLoop, hresp]
    rw [if_pos hlong]
  · intro hall
    obtain ⟨sleeps, heq, hlen, hle⟩ :=
      getLoop_all_short_rateLimited maxRetries resp now jitter hall maxRetries 0
        (by omega) (by omega)
    exact ⟨sleeps, by
      rw [githubGet_eq_getLoop maxRetries st tNow resp now jitter hcur, heq]
      simp, by simpa using hlen, hle⟩

/-- Witness for C1: with a budget of 5 attempts and every attempt hitting a
403 whose reset equals the current time (wait = 5 s ≤ 120 s), the call ends
in `rateLimitRetriesExhausted` after 4 capped sleeps. -/
theorem c1_rate_limit_retry_witness :
    ∃ sleeps, githubGet 5 ⟨0, 0⟩ 1000 (fun _ => .rateLimited 1000)
        (fun _ => 1000) (fun _ => 0) =
        (.rateLimitRetriesExhausted, sleeps, 5) ∧
      sleeps.length = 4 ∧ ∀ s ∈ sleeps, s ≤ 30 :=
  (c1_rate_limit_retry_amended 5 ⟨0, 0⟩ 1000 (fun _ => .rateLimited 1000)
      (fun _ => 1000) (fun _ => 0) (by norm_num) (by norm_num)).2
    (fun i _ => ⟨1000, rfl, by norm_num⟩)

/-- C1 (counterexample to the claim as stated): with the default budget of 5
attempts and every attempt receiving a short-wait 403 (reset = now, so
wait = 5 s < 120 s), the call ends with the `RateLimitError` of client.py
line 136, whose message is "GitHub API rate limit exceeded. Please try again
later." — not with `GitHubAPIError("Maximum retries reached")` as the claim
says. -/
theorem c1_rate_limit_retry_counterexample :
    githubGet 5 ⟨0, 0⟩ 1000 (fun _ => .rateLimited 1000) (fun _ => 1000)
        (fun _ => 0) =
      (.rateLimitRetriesExhausted, [5, 5, 5, 5], 5) ∧
    pyExceptionMessage .rateLimitRetriesExhausted =
      some "GitHub API rate limit exceeded. Please try again later." ∧
    pyExceptionMessage .rateLimitRetriesExhausted ≠ some "Maximum retries reached" := by
  refine ⟨?_, rfl, by simp [pyExceptionMessage]⟩
  rw [githubGet_eq_getLoop 5 ⟨0, 0⟩ 1000 _ _ _ (by norm_num)]
  have e1 : ((1000 : ℚ) - 1000) ⊔ 0 + 5 = 5 := by norm_num
  have e2 : ¬ (120 : ℚ) < 5 := by norm_num
  have e3 : ((5 : ℚ) ⊓ 30) = 5 := by norm_num
  simp [getLoop, e1, e2, e3]

/-- C5: when (after the hourly reset of client.py lines 60–63) more than 90%
of the 5000-per-hour budget is consumed and fewer than 10 requests remain,
`get` raises the quota `RateLimitError` carrying the estimated wait
`max(3600 − elapsed, 60)` with zero HTTP requests issued and zero retry
sleeps performed. -/
theorem c5_hourly_budget_fail_fast (maxRetries : Nat) (st : RateState) (tNow : ℚ)
    (resp : Nat → Resp) (now jitter : Nat → ℚ)
    (h0 : ¬ (3600 : ℚ) < tNow - st.hourStart)
    (h1 : (requestsPerHour : ℚ) * (9 / 10) < (st.currentRequests : ℚ))
    (h2 : (requestsPerHour : ℤ) - (st.currentRequests : ℤ) < 10) :
    githubGet maxRetries st tNow resp now jitter =
      (.quotaNearlyExhausted (max (3600 - (tNow - st.hourStart)) 60), [], 0) := by
  simp only [githubGet]
  rw [if_neg h0, if_pos h1, if_pos (le_of_lt h2)]

/-- Witness for C5: 4995 of 5000 requests used 100 s into the hour window —
the call fails fast with the 3500 s wait estimate, before any HTTP request. -/
theorem c5_hourly_budget_fail_fast_witness :
    githubGet 5 ⟨0, 4995⟩ 100 (fun _ => .ok 0) (fun _ => 0) (fun _ => 0) =
      (.quotaNearlyExhausted 3500, [], 0) := by
  have h := c5_hourly_budget_fail_fast 5 ⟨0, 4995⟩ 100 (fun _ => .ok 0)
    (fun _ => 0) (fun _ => 0) (by norm_num) (by norm_num [requestsPerHour])
    (by norm_num [requestsPerHour])
  rw [h]
  norm_num

/-- C7: `fetch_multiple_repositories` returns exactly the concatenation, in
repository order, of each repository's per-repo result, where a repository
whose fetch raised contributes `[]` (the exception is caught inside
`fetch_repo_content`) and the others are unaffected. -/
theorem c7_batch_errors_isolated {α : Type} (repos : List α)
    (fetchRes : α → Except String (List FileRecord)) :
    fetchMultipleRepositories repos fetchRes =
        (repos.map (fetchRepoContent fetchRes)).flatten ∧
    ∀ r e, fetchRes r = .error e → fetchRepoContent fetchRes r = [] := by
  constructor
  · have key : ∀ (n : Nat) (bs : Nat) (l : List α), l.length ≤ n →
        batchLoop bs fetchRes l = (l.map (fetchRepoContent fetchRes)).flatten := by
      intro n
      induction n with
      | zero =>
        intro bs l hl
        have : l = [] := List.length_eq_zero.mp (Nat.le_zero.mp hl)
        subst this
        simp [batchLoop]
      | succ n ih =>
        intro bs l hl
        cases l with
        | nil => simp [batchLoop]
        | cons r rs =>
          rw [batchLoop]
          simp only [List.length_cons] at hl
          rw [ih bs (rs.drop bs) (by simp only [List.length_drop]; omega)]
          have hsplit : r :: rs = (r :: rs.take bs) ++ rs.drop bs := by
            simp [List.take_append_drop]
          conv_rhs => rw [hsplit]
          simp [List.take_succ_cons, List.map_append, List.flatten_append]
          rw [← List.flatten_append, List.take_append_drop]
    simp only [fetchMultipleRepositories]
    split
    · next h => simp [List.isEmpty_iff.mp h]
    · next h => exact key repos.length _ repos le_rfl
  · intro r e he
    simp [fetchRepoContent, he]

/-- Witness for C7: over repositories `[1, 2, 3]` where repository 2 raises,
repository 2 contributes no files. -/
theorem c7_batch_errors_isolated_witness :
    fetchRepoContent exFetchRes 2 = [] :=
  (c7_batch_errors_isolated [1, 2, 3] exFetchRes).2 2 "boom" rfl

/-- C9: if the cancellation event is set when the page loop of
`fetch_organization_repositories` reaches a page boundary, the call returns
`[]` — discarding whatever `acc` had accumulated from earlier pages — and
issues the "Operation cancelled" progress callback instead of an error. -/
theorem c9_cancellation_discards_partial {α : Type}
    (pages : Nat → Except String (List α)) (cancel : Nat → Bool)
    (total fuel page processed : Nat) (acc : List α)
    (h : cancel page = true) :
    fetchOrgPagesLoop pages cancel total (fuel + 1) page processed acc =
      (.ok [], [((processed : ℚ) / ((max 1 total : Nat) : ℚ) * 100,
        "Operation cancelled")]) := by
  simp [fetchOrgPagesLoop, h]

/-- Witness for C9: the event is set while two repositories are already
accumulated — the call still returns the empty list with the cancellation
message. -/
theorem c9_cancellation_discards_partial_witness :
    fetchOrgPagesLoop (fun _ => .ok ([] : List Nat)) (fun _ => true) 10 3 2 150
        [7, 8] =
      (.ok [], [((150 : ℚ) / ((max 1 10 : Nat) : ℚ) * 100, "Operation cancelled")]) :=
  c9_cancellation_discards_partial (fun _ => .ok ([] : List Nat)) (fun _ => true)
    10 2 2 150 [7, 8] rfl

/-- C10: with no branch given and the repository-metadata lookup raising a
`GitHubAPIError`, `fetch_relevant_content` swallows the error and crawls the
configured default branch. -/
theorem c10_branch_lookup_fallback (cfg : CrawlConfig)
    (dl : String → Except String String) (owner repo e defaultBranch cacheDir : String)
    (entries : List GEntry) :
    fetchRelevantContent cfg dl owner repo none (.error (.apiError e))
        defaultBranch cacheDir entries =
      .ok (fetchDirectoryContent cfg dl owner repo defaultBranch ""
        (cacheDir ++ "/" ++ owner ++ "/" ++ repo) entries) := rfl

/-- C2 (counterexample to the claim as stated): in `deepTree 12` the only
file lies 13 directory levels below the crawl root (its path has 14
`/`-separated components), yet the crawl invoked by `fetch_relevant_content`
lists that directory and returns the file's record — there is no recursion
depth bound in `_fetch_directory_content`. -/
theorem c2_depth_bound_counterexample :
    fetchRelevantContent exCfg dlOk "o" "r" (some "main") (.ok none) "main" "cache"
        (deepTree 12) =
      .ok [{ name := "a.md", path := "docs/d/d/d/d/d/d/d/d/d/d/d/d/a.md",
             sha := some "sha-deep", size := 100, url := some "https://example/deep",
             localPath := some "cache/o/r/docs/d/d/d/d/d/d/d/d/d/d/d/d/a.md",
             error := none, repo := "o/r", branch := "main" }] ∧
    "docs/d/d/d/d/d/d/d/d/d/d/d/d/a.md".data.count '/' = 13 := by
  refine ⟨?_, by decide⟩
  rw [fetchRelevantContent_deepTree 12]
  simp [expectedDeepRecord, nestDirPath]

/-- C2 (amended): the crawl invoked by `fetch_relevant_content` has no
recursion depth bound at all — for every nesting depth `n`, the single file
of `deepTree n` (which lies `n + 1` levels below the root) is listed and
returned.  The `max_depth = 10` bound exists only in the separate
`GitHubClient._scan_directory_structure` used by `scan_repository_structure`,
which `fetch_relevant_content` never calls. -/
theorem c2_depth_bound_amended (n : Nat) :
    fetchRelevantContent exCfg dlOk "o" "r" (some "main") (.ok none) "main" "cache"
        (deepTree n) =
      .ok [expectedDeepRecord n] :=
  fetchRelevantContent_deepTree n

/-- C3 (counterexample to the claim as stated): `x/docs/a.md` lies in a
relevant context (the segment `docs` is relevant), has an allowed extension
and is under the size cap, yet the crawl collects nothing — the crawl never
descends into the irrelevant top-level folder `x`, so "in a relevant
context ∧ allowed extension ∧ size ok" does not imply collection. -/
theorem c3_filtering_counterexample :
    relevantContextForFile exCfg "x/docs" = true ∧
    isTextFile exCfg.textFileExtensions "a.md" = true ∧
    sizeWithinLimit exCfg 1024 = true ∧
    fetchRelevantContent exCfg dlOk "o" "r" (some "main") (.ok none) "main" "cache"
        exNestedTree =
      .ok [] := by
  have h10 : descendDir exCfg "" "x" = false := by decide
  have h11 : "x" ∉ exCfg.ignoredDirs := by decide
  refine ⟨by decide, by decide, by norm_num [sizeWithinLimit, exCfg], ?_⟩
  simp [fetchRelevantContent, fetchDirectoryContent, exNestedTree, crawlList, h10, h11]

/-- C3 (amended): relevance + extension + size filtering work together as the
synthetic example states — crawling `{docs/a.md (1 KB), src/b.py,
docs/big.md (2 MB > 1 MB cap)}` yields exactly the one record for
`docs/a.md` — but collection additionally requires the relevance to be
established along the path from the crawl root: a relevant folder nested
under an irrelevant top-level folder (`x/docs/a.md`) contributes nothing. -/
theorem c3_filtering_amended :
    fetchRelevantContent exCfg dlOk "o" "r" (some "main") (.ok none) "main" "cache"
        exTree =
      .ok [{ name := "a.md", path := "docs/a.md", sha := some "sha-a", size := 1024,
             url := some "https://example/a", localPath := some "cache/o/r/docs/a.md",
             error := none, repo := "o/r", branch := "main" }] ∧
    fetchRelevantContent exCfg dlOk "o" "r" (some "main") (.ok none) "main" "cache"
        exNestedTree =
      .ok [] := by
  constructor
  · have h1 : relevantContextForFile exCfg "docs" = true := by decide
    have h2 : isTextFile exCfg.textFileExtensions "a.md" = true := by decide
    have h3 : sizeWithinLimit exCfg 1024 = true := by norm_num [sizeWithinLimit, exCfg]
    have h4 : sizeWithinLimit exCfg 2097152 = false := by norm_num [sizeWithinLimit, exCfg]
    have h5 : isTextFile exCfg.textFileExtensions "big.md" = true := by decide
    have h6 : descendDir exCfg "" "docs" = true := by decide
    have h7 : descendDir exCfg "" "src" = false := by decide
    have h8 : "docs" ∉ exCfg.ignoredDirs := by decide
    have h9 : "src" ∉ exCfg.ignoredDirs := by decide
    simp [fetchRelevantContent, fetchDirectoryContent, exTree, crawlList,
      h1, h2, h3, h4, h5, h6, h7, h8, h9, joinPath, processFile, dlOk]
  · have h10 : descendDir exCfg "" "x" = false := by decide
    have h11 : "x" ∉ exCfg.ignoredDirs := by decide
    simp [fetchRelevantContent, fetchDirectoryContent, exNestedTree, crawlList, h10, h11]

/-- C4: every record the crawl returns satisfies the exclusive-or invariant
(`_process_file` never raises; it returns either a cached record or an error
record), and a failing file still appears in the returned list next to its
unaffected sibling: with `docs/b.md` failing, the crawl returns the cached
record for `docs/a.md` followed by the error record for `docs/b.md`. -/
theorem c4_process_file_exclusive (cfg : CrawlConfig)
    (dl : String → Except String String) (owner repo branch path baseDir : String)
    (entries : List GEntry) :
    (∀ r ∈ fetchDirectoryContent cfg dl owner repo branch path baseDir entries,
      fileRecordExclusive r) ∧
    fetchDirectoryContent exCfg dlFailB "o" "r" "main" "" "cache" siblingTree =
      [{ name := "a.md", path := "docs/a.md", sha := some "sha-a", size := 10,
         url := some "https://example/a", localPath := some "cache/docs/a.md",
         error := none, repo := "o/r", branch := "main" },
       { name := "b.md", path := "docs/b.md", sha := none, size := 10,
         url := none, localPath := none, error := some "download failed",
         repo := "o/r", branch := "main" }] := by
  constructor
  · intro r hr
    exact crawlList_exclusive cfg dl owner repo branch path baseDir entries r
      (List.mem_append.mp hr)
  · have h1 : relevantContextForFile exCfg "docs" = true := by decide
    have h2 : isTextFile exCfg.textFileExtensions "a.md" = true := by decide
    have h2b : isTextFile exCfg.textFileExtensions "b.md" = true := by decide
    have h3 : sizeWithinLimit exCfg 10 = true := by norm_num [sizeWithinLimit, exCfg]
    have h6 : descendDir exCfg "" "docs" = true := by decide
    have h8 : "docs" ∉ exCfg.ignoredDirs := by decide
    simp [fetchDirectoryContent, siblingTree, crawlList, h1, h2, h2b, h3, h6, h8,
      joinPath, processFile, dlFailB]

/-- Witness for C4: the error record of the failing `docs/b.md` — a member of
the crawl's result — carries `error` and no `local_path`. -/
theorem c4_process_file_exclusive_witness :
    fileRecordExclusive
      { name := "b.md", path := "docs/b.md", sha := none, size := 10,
        url := none, localPath := none, error := some "download failed",
        repo := "o/r", branch := "main" } := by
  have h := c4_process_file_exclusive exCfg dlFailB "o" "r" "main" "" "cache" siblingTree
  exact h.1 _ (by rw [h.2]; simp)

/-- C6: the claim is right and the code is wrong — `fetch_single_repo` uses
`repo.rstrip(".git")`, which strips trailing characters of the *set*
{'.', 'g', 'i', 't'}, not the suffix ".git": the well-formed URL
`https://github.com/owner/digit` resolves to repository name "d" instead of
"digit".  Names actually ending in ".git" are stripped as the claim says,
and a malformed string still fails fast with the ValueError. -/
theorem c6_url_parsing_rstrip_bug :
    fetchSingleRepoResolve "https://github.com/owner/digit" = .ok ("owner", "d") ∧
    fetchSingleRepoResolve "https://github.com/owner/repo.git" = .ok ("owner", "repo") ∧
    fetchSingleRepoResolve "owner/repo" =
      .error "Invalid GitHub repository URL: owner/repo" := by
  refine ⟨rfl, rfl, rfl⟩

/-- C8: `_is_relevant_folder` decides relevance by case-insensitive substring
containment — true exactly when some configured keyword occurs inside the
lower-cased folder name — so "code-samples" (and "Code-Samples"), which
merely contain the keyword "samples", are classified relevant although
neither equals any configured keyword. -/
theorem c8_relevance_substring :
    (∀ (folders : List String) (name : String),
      isRelevantFolder folders name = true ↔
        ∃ kw ∈ folders, pyIn kw (pyLower name) = true) ∧
    isRelevantFolder exCfg.relevantFolders "code-samples" = true ∧
    isRelevantFolder exCfg.relevantFolders "Code-Samples" = true ∧
    "code-samples" ∉ exCfg.relevantFolders := by
  refine ⟨?_, by decide, by decide, by decide⟩
  intro folders name
  simp [isRelevantFolder, List.any_eq_true]

end SdkDatasets
